import Mathlib

/-!
Verification of the `Vec3<T>` value type of the lamar repository
(`src/vector/vec3.rs`): a generic three-dimensional vector with dot and
cross products and componentwise / scalar operator bindings.

The embedding is shallow: the Rust struct `Vec3<T>` becomes a Lean
structure parameterised by the scalar type, and each Rust method or
operator impl becomes a Lean function with the same body, generic over
the scalar operations it uses (`Mul`, `Add`, `Sub`, `Div`, `Neg`,
`BEq`), mirroring the `T: Num + Clone + Copy` bound of the source.
Concrete instantiations use `Int`, where Rust's fixed-width integer
arithmetic agrees with `Int` at the (small, non-overflowing) values of
the spec's literals.
-/

/-- The struct `Vec3<T>` of `src/vector/vec3.rs`: three components
`x`, `y`, `z` of a common scalar type. -/
structure Vec3 (T : Type) where
  x : T
  y : T
  z : T
deriving DecidableEq

/-- `Vec3::new(x, y, z)`: constructs a vector from the three components,
with no validation. -/
def Vec3.new {T : Type} (x y z : T) : Vec3 T :=
  ⟨x, y, z⟩

/-- `Vec3::dot(&self, rhs)`: `self.x * rhs.x + self.y * rhs.y + self.z * rhs.z`. -/
def Vec3.dot {T : Type} [Mul T] [Add T] (a rhs : Vec3 T) : T :=
  a.x * rhs.x + a.y * rhs.y + a.z * rhs.z

/-- `Vec3::cross(&self, rhs)`: the 3D cross product, exactly as the
source computes each field. -/
def Vec3.cross {T : Type} [Mul T] [Sub T] (a rhs : Vec3 T) : Vec3 T :=
  { x := a.y * rhs.z - a.z * rhs.y
    y := a.z * rhs.x - a.x * rhs.z
    z := a.x * rhs.y - a.y * rhs.x }

/-- `Vec3::<f32>::zero()`: the f32-only constructor returning all
components `0.0`. Modelled over `Float`: the function performs no
arithmetic, it only stores the literal zero, which is the same exact
value in every IEEE width. -/
def Vec3.zero : Vec3 Float :=
  { x := 0.0, y := 0.0, z := 0.0 }

/-- `impl Add for Vec3<T>` (vector + vector): componentwise sum. -/
def Vec3.addVec {T : Type} [Add T] (a other : Vec3 T) : Vec3 T :=
  { x := a.x + other.x, y := a.y + other.y, z := a.z + other.z }

/-- `impl Add<T> for Vec3<T>` (vector + scalar): the scalar added to
each component. -/
def Vec3.addScalar {T : Type} [Add T] (a : Vec3 T) (other : T) : Vec3 T :=
  { x := a.x + other, y := a.y + other, z := a.z + other }

/-- `impl Sub for Vec3<T>` (vector − vector): componentwise difference. -/
def Vec3.subVec {T : Type} [Sub T] (a other : Vec3 T) : Vec3 T :=
  { x := a.x - other.x, y := a.y - other.y, z := a.z - other.z }

/-- `impl Sub<T> for Vec3<T>` (vector − scalar): the scalar subtracted
from each component. -/
def Vec3.subScalar {T : Type} [Sub T] (a : Vec3 T) (other : T) : Vec3 T :=
  { x := a.x - other, y := a.y - other, z := a.z - other }

/-- `impl Mul for Vec3<T>` (vector × vector): the source delegates to
`self.cross(&other)`. -/
def Vec3.mulVec {T : Type} [Mul T] [Sub T] (a other : Vec3 T) : Vec3 T :=
  a.cross other

/-- `impl Mul<T> for Vec3<T>` (vector × scalar): each component times
the scalar. -/
def Vec3.mulScalar {T : Type} [Mul T] (a : Vec3 T) (other : T) : Vec3 T :=
  { x := a.x * other, y := a.y * other, z := a.z * other }

/-- `impl Div<T> for Vec3<T>` (vector ÷ scalar): each component divided
by the scalar with `T`'s own division, applied unconditionally — the
body contains no test on `other`, so no zero-check exists. -/
def Vec3.divScalar {T : Type} [Div T] (a : Vec3 T) (other : T) : Vec3 T :=
  { x := a.x / other, y := a.y / other, z := a.z / other }

/-- The equality `#[derive(PartialEq)]` generates for `Vec3<T>`:
the conjunction of the componentwise scalar equalities. -/
def Vec3.beq {T : Type} [BEq T] (a b : Vec3 T) : Bool :=
  a.x == b.x && a.y == b.y && a.z == b.z

/-- Componentwise product of two vectors. Modelled from the spec's words
("not the componentwise product"): this operation exists nowhere in the
source; it is the alternative reading the spec rules out, defined only
to be compared against `Vec3.mulVec`. -/
def Vec3.compMul {T : Type} [Mul T] (a b : Vec3 T) : Vec3 T :=
  { x := a.x * b.x, y := a.y * b.y, z := a.z * b.z }

/-- Componentwise negation. Modelled from the spec's words
("`-cross(b,a)` under `T`'s negation"): the source defines no `Neg` for
`Vec3`, so the spec's `-v` is read as `T`'s negation applied to each
component. -/
def Vec3.negVec {T : Type} [Neg T] (a : Vec3 T) : Vec3 T :=
  { x := -a.x, y := -a.y, z := -a.z }

/-- C1: for every scalar type and all vectors `a`, `b`, the
multiplication operator `a * b` returns exactly `cross(a, b)` — the two
code paths never diverge — and at the spec's literal input the operator
differs from the componentwise product, so `*` is the cross product and
not the componentwise product. -/
theorem Vec3.mulVec_eq_cross :
    (∀ (T : Type) [Mul T] [Sub T] (a b : Vec3 T), Vec3.mulVec a b = Vec3.cross a b) ∧
    Vec3.mulVec (Vec3.new (5 : Int) 10 15) (Vec3.new 3 1 7) ≠
      Vec3.compMul (Vec3.new (5 : Int) 10 15) (Vec3.new 3 1 7) := by
  refine ⟨fun T _ _ a b => rfl, ?_⟩
  decide

/-- C2: for every scalar type and all vectors `a`, `b`, `dot(a, b)`
returns the scalar `a.x*b.x + a.y*b.y + a.z*b.z` (a pure function of its
inputs), and over the integers `dot((2,4,8), (16,32,64)) = 672`. -/
theorem Vec3.dot_formula :
    (∀ (T : Type) [Mul T] [Add T] (a b : Vec3 T),
      Vec3.dot a b = a.x * b.x + a.y * b.y + a.z * b.z) ∧
    Vec3.dot (Vec3.new (2 : Int) 4 8) (Vec3.new 16 32 64) = 672 := by
  refine ⟨fun T _ _ a b => rfl, ?_⟩
  decide

/-- C3: for every scalar type and all vectors `a`, `b`, `cross(a, b)`
returns the vector `(a.y*b.z − a.z*b.y, a.z*b.x − a.x*b.z,
a.x*b.y − a.y*b.x)` (a pure function, touching neither operand), and
over the integers `cross((5,10,15), (3,1,7)) = (55, 10, −25)`. -/
theorem Vec3.cross_formula :
    (∀ (T : Type) [Mul T] [Sub T] (a b : Vec3 T),
      Vec3.cross a b =
        Vec3.new (a.y * b.z - a.z * b.y) (a.z * b.x - a.x * b.z) (a.x * b.y - a.y * b.x)) ∧
    Vec3.cross (Vec3.new (5 : Int) 10 15) (Vec3.new 3 1 7) = Vec3.new 55 10 (-25) := by
  refine ⟨fun T _ _ a b => rfl, ?_⟩
  decide

/-- C4: for every scalar type and all vectors `a`, `b`, `a + b` is the
componentwise sum and `a − b` the componentwise difference, and over the
integers `(2,4,8)+(16,32,64) = (18,36,72)` and
`(2,4,8)−(16,32,64) = (−14,−28,−56)`. -/
theorem Vec3.addVec_subVec_componentwise :
    (∀ (T : Type) [Add T] (a b : Vec3 T),
      Vec3.addVec a b = Vec3.new (a.x + b.x) (a.y + b.y) (a.z + b.z)) ∧
    (∀ (T : Type) [Sub T] (a b : Vec3 T),
      Vec3.subVec a b = Vec3.new (a.x - b.x) (a.y - b.y) (a.z - b.z)) ∧
    Vec3.addVec (Vec3.new (2 : Int) 4 8) (Vec3.new 16 32 64) = Vec3.new 18 36 72 ∧
    Vec3.subVec (Vec3.new (2 : Int) 4 8) (Vec3.new 16 32 64) = Vec3.new (-14) (-28) (-56) := by
  refine ⟨fun T _ a b => rfl, fun T _ a b => rfl, ?_, ?_⟩ <;> decide

/-- C5: for every scalar type, every vector `a` and every scalar `s`,
the scalar-operand operators apply `s` to each component independently:
`a + s`, `a − s` and `a * s` are computed componentwise, and over the
integers `(32,64,128)+10 = (42,74,138)`, `(32,64,128)−10 = (22,54,118)`,
`(32,64,128)*10 = (320,640,1280)`. -/
theorem Vec3.scalar_ops_componentwise :
    (∀ (T : Type) [Add T] (a : Vec3 T) (s : T),
      Vec3.addScalar a s = Vec3.new (a.x + s) (a.y + s) (a.z + s)) ∧
    (∀ (T : Type) [Sub T] (a : Vec3 T) (s : T),
      Vec3.subScalar a s = Vec3.new (a.x - s) (a.y - s) (a.z - s)) ∧
    (∀ (T : Type) [Mul T] (a : Vec3 T) (s : T),
      Vec3.mulScalar a s = Vec3.new (a.x * s) (a.y * s) (a.z * s)) ∧
    Vec3.addScalar (Vec3.new (32 : Int) 64 128) 10 = Vec3.new 42 74 138 ∧
    Vec3.subScalar (Vec3.new (32 : Int) 64 128) 10 = Vec3.new 22 54 118 ∧
    Vec3.mulScalar (Vec3.new (32 : Int) 64 128) 10 = Vec3.new 320 640 1280 := by
  refine ⟨fun T _ a s => rfl, fun T _ a s => rfl, fun T _ a s => rfl, ?_, ?_, ?_⟩ <;> decide

/-- C6: for every scalar type, every vector `a` and every scalar `s` —
including `s` equal to `T`'s zero, since the body performs no zero-check
— `a / s` returns `(a.x/s, a.y/s, a.z/s)` under `T`'s own division, so
the outcome at zero is exactly whatever `T`'s division produces there;
and over the integers `(32,64,128)/4 = (8,16,32)`. -/
theorem Vec3.divScalar_componentwise :
    (∀ (T : Type) [Div T] (a : Vec3 T) (s : T),
      Vec3.divScalar a s = Vec3.new (a.x / s) (a.y / s) (a.z / s)) ∧
    Vec3.divScalar (Vec3.new (32 : Int) 64 128) 4 = Vec3.new 8 16 32 := by
  refine ⟨fun T _ a s => rfl, ?_⟩
  decide

/-- C7: the derived equality on `Vec3 T` holds iff each corresponding
component is equal under `T`'s equality; when `T`'s equality is
reflexive, `new(x,y,z) == new(x,y,z)` for all `x`, `y`, `z`; two vectors
are unequal as soon as any one component differs; and when `T`'s
equality is symmetric, `a == b` implies `b == a`. -/
theorem Vec3.beq_componentwise (T : Type) [BEq T]
    (hrefl : ∀ t : T, (t == t) = true)
    (hsymm : ∀ s t : T, (s == t) = (t == s)) :
    (∀ a b : Vec3 T, Vec3.beq a b = true ↔
      ((a.x == b.x) = true ∧ (a.y == b.y) = true ∧ (a.z == b.z) = true)) ∧
    (∀ x y z : T, Vec3.beq (Vec3.new x y z) (Vec3.new x y z) = true) ∧
    (∀ a b : Vec3 T, (a.x == b.x) = false ∨ (a.y == b.y) = false ∨ (a.z == b.z) = false →
      Vec3.beq a b = false) ∧
    (∀ a b : Vec3 T, Vec3.beq a b = true → Vec3.beq b a = true) := by
  refine ⟨?_, ?_, ?_, ?_⟩
  · intro a b
    simp [Vec3.beq, and_assoc]
  · intro x y z
    simp [Vec3.beq, Vec3.new, hrefl]
  · intro a b h
    rcases h with h | h | h <;> simp [Vec3.beq, h]
  · intro a b h
    simp only [Vec3.beq, Bool.and_eq_true] at h ⊢
    exact ⟨⟨(hsymm b.x a.x).trans h.1.1, (hsymm b.y a.y).trans h.1.2⟩,
      (hsymm b.z a.z).trans h.2⟩

/-- Witness for C7 at the concrete scalar type `Int` and input
`(1, 2, 3)`: `Int`'s equality is reflexive and symmetric, and the
derived equality accepts the vector against itself. -/
theorem Vec3.beq_componentwise_witness :
    Vec3.beq (Vec3.new (1 : Int) 2 3) (Vec3.new (1 : Int) 2 3) = true :=
  (Vec3.beq_componentwise Int (fun t => by simp)
    (fun s t => by
      rcases eq_or_ne s t with h | h
      · subst h; rfl
      · simp [h, Ne.symm h])).2.1 1 2 3

/-- C8: the cross product is anticommutative: over any commutative ring
of scalars (so in particular any scalar type with negation and the usual
arithmetic laws), `cross(a, b) = -cross(b, a)` with the negation taken
componentwise, and neither operand is touched. -/
theorem Vec3.cross_anticomm :
    ∀ (T : Type) [CommRing T] (a b : Vec3 T),
      Vec3.cross a b = Vec3.negVec (Vec3.cross b a) := by
  intro T _ a b
  simp only [Vec3.cross, Vec3.negVec, Vec3.mk.injEq]
  refine ⟨by ring, by ring, by ring⟩

/-- C10: over any commutative ring of scalars, the cross product of a
vector with itself is the zero vector: each component has the shape
`t₁*t₂ − t₂*t₁`, which commutativity collapses to zero. -/
theorem Vec3.cross_self :
    ∀ (T : Type) [CommRing T] (a : Vec3 T),
      Vec3.cross a a = Vec3.new 0 0 0 := by
  intro T _ a
  simp only [Vec3.cross, Vec3.new, Vec3.mk.injEq]
  refine ⟨by ring, by ring, by ring⟩

/-- C9: the f32-only zero constructor returns the vector whose three
components are exactly the floating-point zero:
`zero() = new(0.0, 0.0, 0.0)`. -/
theorem Vec3.zero_eq_new :
    Vec3.zero = Vec3.new 0.0 0.0 0.0 :=
  rfl
